import Mathlib

/-!
Verification of the `kml_parser` repository (files
`create_kml_zones.py` and `kml_to_word.py`) against its
natural-language specification.

The embedding works over exact arithmetic: Python floats are modelled
by `ℚ` where the source only does field arithmetic on parsed decimal
fractions (the DMS codec and the coordinate extractor), and by `ℝ`
where the source uses `math.sqrt` / `math.sin` / `math.cos` /
`math.pi` (the circle synthesizer and the shape classifier).  Python
exceptions (`int()` on a non-digit string, indexing an empty string)
are modelled with `Option`.
-/

/-! ### Python string primitives -/

/-- The whitespace characters recognised by `str.strip()` / `\s`
(ASCII fragment, which is all that the zone strings contain). -/
def isPySpace (c : Char) : Bool :=
  c = ' ' || c = '\t' || c = '\n' || c = '\r' || c = '\x0b' || c = '\x0c'

/-- `str.strip()`: drop whitespace from both ends. -/
def pyStrip (cs : List Char) : List Char :=
  ((cs.dropWhile isPySpace).reverse.dropWhile isPySpace).reverse

/-- ASCII digit test (the only digits occurring in the source data). -/
def isDig (c : Char) : Bool :=
  c = '0' || c = '1' || c = '2' || c = '3' || c = '4' ||
  c = '5' || c = '6' || c = '7' || c = '8' || c = '9'

/-- All characters are ASCII digits. -/
def allDig (cs : List Char) : Bool := cs.all isDig

/-- Numeric value of a string of ASCII digits (most significant first). -/
def parseNatDigits (cs : List Char) : ℕ :=
  cs.foldl (fun a c => 10 * a + (c.toNat - 48)) 0

/-- Python `int(s)`: strip whitespace, allow one optional sign, then a
non-empty run of digits; anything else raises (`none`). -/
def pyInt (cs : List Char) : Option ℤ :=
  match pyStrip cs with
  | [] => none
  | c :: rest =>
    if c = '+' then
      if rest ≠ [] ∧ allDig rest then some (parseNatDigits rest : ℤ) else none
    else if c = '-' then
      if rest ≠ [] ∧ allDig rest then some (-(parseNatDigits rest : ℤ)) else none
    else
      if allDig (c :: rest) then some (parseNatDigits (c :: rest) : ℤ) else none

/-- Python `s.zfill(w)`: left-pad with `'0'` up to width `w`
(identity when `s` is already at least that long). -/
def zfill (w : ℕ) (cs : List Char) : List Char :=
  List.replicate (w - cs.length) '0' ++ cs

/-- Python `f"{n:0wd}"` for a natural number `n`: decimal digits,
left-padded with zeros to width `w` (all digits kept if longer). -/
def fmtNat (w : ℕ) (n : ℕ) : List Char := zfill w (Nat.toDigits 10 n)

/-! ### DMS codec

`parse_dms` is from `create_kml_zones.py` lines 6-53, `decimal_to_dms`
from `kml_to_word.py` lines 10-30. -/

/-- Latitude branch of `parse_dms`: DDMMSS grouping; digit strings of
length other than 6 are first zero-filled to width 6 (`zfill 6` is the
identity on width-6 strings, so the two source branches coincide). -/
def latVal (numeric_part : List Char) : Option ℚ :=
  let padded := if numeric_part.length = 6 then numeric_part else zfill 6 numeric_part
  (pyInt (padded.take 2)).bind fun d =>
    (pyInt ((padded.drop 2).take 2)).bind fun m =>
      (pyInt ((padded.drop 4).take 2)).bind fun s =>
        some ((d : ℚ) + (m : ℚ) / 60 + (s : ℚ) / 3600)

/-- Longitude branch of `parse_dms`: DDDMMSS grouping, width 7. -/
def lonVal (numeric_part : List Char) : Option ℚ :=
  let padded := if numeric_part.length = 7 then numeric_part else zfill 7 numeric_part
  (pyInt (padded.take 3)).bind fun d =>
    (pyInt ((padded.drop 3).take 2)).bind fun m =>
      (pyInt ((padded.drop 5).take 2)).bind fun s =>
        some ((d : ℚ) + (m : ℚ) / 60 + (s : ℚ) / 3600)

/-- `parse_dms(dms_str)`: strip, take the direction letter, parse the
(stripped) remainder with the grouping selected by the direction, and
negate for `S` / `W`.  `none` models the exceptions the Python code can
raise (empty string, non-digit slices). -/
def parse_dms (dms_str : String) : Option ℚ :=
  match pyStrip dms_str.data with
  | [] => none
  | direction :: tail =>
    (if direction = 'E' ∨ direction = 'W' then lonVal (pyStrip tail)
     else latVal (pyStrip tail)).map
      (fun dec => if direction = 'S' ∨ direction = 'W' then -dec else dec)

/-- `decimal_to_dms(decimal, is_latitude)`: truncate to integer
degrees, minutes, seconds and format a fixed-width directional token.
Python `int()` truncates toward zero; every argument it receives here
is nonnegative, so it is the floor.  This definition evaluates the
truncation chain in exact rational arithmetic — the intent-level
idealization of the code.  The program itself runs it on binary64
floats, whose rounding makes the chain drop a second on many inputs;
that behavior is modelled separately and exactly by `RN`,
`dmsToDecFP` and `dmsFieldsFP` below. -/
def decimal_to_dms (decimal : ℚ) (is_latitude : Bool) : String :=
  let a : ℚ := |decimal|
  let degrees : ℕ := (Int.floor a).toNat
  let minutes : ℕ := (Int.floor ((a - degrees) * 60)).toNat
  let seconds : ℕ := (Int.floor (((a - degrees) * 60 - minutes) * 60)).toNat
  if is_latitude then
    String.mk ((if 0 ≤ decimal then 'N' else 'S') ::
      (fmtNat 2 degrees ++ fmtNat 2 minutes ++ fmtNat 2 seconds))
  else
    String.mk ((if 0 ≤ decimal then 'E' else 'W') ::
      (fmtNat 3 degrees ++ fmtNat 2 minutes ++ fmtNat 2 seconds))

/-! ### Binary64 model of the codec arithmetic

Python floats are IEEE-754 binary64: every arithmetic operation
returns the exact result rounded to the nearest representable value
(ties to even).  A binary64 value is an exact rational, so the whole
float computation of the round-trip can be carried out in `ℚ` by
interleaving the exact operations with the rounding function `RN`.
All values arising in the DMS round-trip lie well inside the normal
range, so overflow and subnormals do not occur. -/

/-- Round a positive rational to the nearest binary64 value, ties to
even: locate the binade via `Int.log`, round the 53-bit significand
`q / 2 ^ e`, and scale back. -/
def RNpos (q : ℚ) : ℚ :=
  let e : ℤ := Int.log 2 q - 52
  let x : ℚ := q / 2 ^ e
  let f : ℤ := Int.floor x
  ((if x - (f : ℚ) < 1 / 2 then f
    else if 1 / 2 < x - (f : ℚ) then f + 1
    else if f % 2 = 0 then f else f + 1 : ℤ) : ℚ) * 2 ^ e

/-- Correct rounding of an exact rational to binary64 (round to
nearest, ties to even); the semantics of each Python float operation. -/
def RN (q : ℚ) : ℚ :=
  if q = 0 then 0 else if q < 0 then -RNpos (-q) else RNpos q

/-- Binary64 evaluation of `d + m/60 + s/3600` in Python's
left-to-right order (each operation correctly rounded;
integer-to-float conversions are exact at these magnitudes): the value
the program's `parse_dms` actually returns for fields `d`, `m`, `s`. -/
def dmsToDecFP (d m s : ℤ) : ℚ :=
  RN (RN ((d : ℚ) + RN ((m : ℚ) / 60)) + RN ((s : ℚ) / 3600))

/-- Binary64 evaluation of the degrees/minutes/seconds truncation
chain of `decimal_to_dms` on a nonnegative float value `a`
(`int()` truncates toward zero, the floor on these nonnegative
arguments; int-to-float conversions are exact at these magnitudes). -/
def dmsFieldsFP (a : ℚ) : ℤ × ℤ × ℤ :=
  let degrees : ℤ := Int.floor a
  let minutes_float : ℚ := RN (RN (a - (degrees : ℚ)) * 60)
  let minutes : ℤ := Int.floor minutes_float
  let seconds : ℤ := Int.floor (RN (RN (minutes_float - (minutes : ℚ)) * 60))
  (degrees, minutes, seconds)

/-! ### Coordinate extractor (`create_kml_zones.py` lines 55-152) -/

/-- The Cyrillic-to-Latin normalisation `coord_str.replace('Е', 'E')`. -/
def fixCyr (c : Char) : Char := if c = 'Е' then 'E' else c

/-- `re.sub(r'\s+', ' ', s)`: replace every maximal whitespace run by a
single space.  Fuel-indexed so that the kernel can evaluate it; the
fuel is always instantiated with the list length, which suffices. -/
def collapseSpacesAux : ℕ → List Char → List Char
  | 0, _ => []
  | _, [] => []
  | fuel + 1, c :: rest =>
    if isPySpace c then ' ' :: collapseSpacesAux fuel (rest.dropWhile isPySpace)
    else c :: collapseSpacesAux fuel rest

/-- The normalisation at the top of `get_coords`: Cyrillic `Е` → `E`,
then `re.sub(r'\s+', ' ', coord_str.strip())`. -/
def normalizeCoord (s : String) : List Char :=
  collapseSpacesAux (pyStrip (s.data.map fixCyr)).length (pyStrip (s.data.map fixCyr))

/-- Whether `pat` occurs as a contiguous substring (Python `in`). -/
def containsTok (pat : List Char) : List Char → Bool
  | [] => pat.isEmpty
  | c :: cs => decide ((c :: cs).take pat.length = pat) || containsTok pat cs

/-- `circle_format`: the string contains `"R="` or `"R-"`. -/
def circleFormat (cs : List Char) : Bool :=
  containsTok ['R', '='] cs || containsTok ['R', '-'] cs

/-- Attempt of `re.search(r'R[=-](\d+)')` at the current position:
`R`, then `=` or `-`, then a non-empty greedy run of digits. -/
def matchRadiusAt : List Char → Option ℕ
  | 'R' :: c :: rest =>
    if c = '=' ∨ c = '-' then
      if (rest.takeWhile isDig).isEmpty then none
      else some (parseNatDigits (rest.takeWhile isDig))
    else none
  | _ => none

/-- `re.search(r'R[=-](\d+)')`: first match position, scanning left to
right. -/
def findRadius : List Char → Option ℕ
  | [] => none
  | c :: cs =>
    match matchRadiusAt (c :: cs) with
    | some n => some n
    | none => findRadius cs

/-- `extract_radius`: radius from the `R=`/`R-` marker, default 5000. -/
def extract_radius (cs : List Char) : ℕ := (findRadius cs).getD 5000

/-- Consume exactly `n` ASCII digits (`\d{n}`). -/
def takeDigitsN : ℕ → List Char → Option (List Char × List Char)
  | 0, cs => some ([], cs)
  | _ + 1, [] => none
  | n + 1, c :: cs =>
    if isDig c then (takeDigitsN n cs).map (fun p => (c :: p.1, p.2)) else none

/-- `[ \-]?`: one optional space or dash.  The following regex atom is
always a digit class, so greedy consumption never needs backtracking. -/
def dropOptSep (cs : List Char) : List Char :=
  match cs with
  | c :: rest => if c = ' ' ∨ c = '-' then rest else cs
  | [] => []

/-- `[ \-,]*`: a greedy run of spaces, dashes and commas.  The atom
after it is `[EW]`, disjoint from the class, so greedy is exact. -/
def dropSepStar (cs : List Char) : List Char := cs.dropWhile (fun c => c = ' ' ∨ c = '-' ∨ c = ',')

/-- One attempt of the reversed-layout pattern
`(\d{6})([NS])[ \-]?(\d{7})([EW])` at the current position.  Group
order follows the Python tuple: `(lat_val, lat_dir, lon_val, lon_dir)`. -/
def matchRevAt (cs : List Char) : Option ((List Char × Char × List Char × Char) × List Char) :=
  (takeDigitsN 6 cs).bind fun p1 =>
    match p1.2 with
    | [] => none
    | d :: r2 =>
      if d = 'N' ∨ d = 'S' then
        (takeDigitsN 7 (dropOptSep r2)).bind fun p2 =>
          match p2.2 with
          | [] => none
          | e :: r4 =>
            if e = 'E' ∨ e = 'W' then some ((p1.1, d, p2.1, e), r4) else none
      else none

/-- One attempt of the standard-layout pattern
`([NS])[ \-]?(\d{6})[ \-,]*([EW])[ \-]?(\d{7})`.  Group order follows
the Python tuple: `(lat_dir, lat_val, lon_dir, lon_val)`. -/
def matchStdAt (cs : List Char) : Option ((Char × List Char × Char × List Char) × List Char) :=
  match cs with
  | [] => none
  | d :: r1 =>
    if d = 'N' ∨ d = 'S' then
      (takeDigitsN 6 (dropOptSep r1)).bind fun p1 =>
        match dropSepStar p1.2 with
        | [] => none
        | e :: r3 =>
          if e = 'E' ∨ e = 'W' then
            (takeDigitsN 7 (dropOptSep r3)).bind fun p2 => some ((d, p1.1, e, p2.1), p2.2)
          else none
    else none

/-- `re.findall` with the reversed-layout pattern: scan left to right,
restart after each match (all matches here are non-empty).  The fuel is
instantiated with the string length, which bounds the scan. -/
def findallRev : ℕ → List Char → List (List Char × Char × List Char × Char)
  | 0, _ => []
  | _, [] => []
  | fuel + 1, c :: cs =>
    match matchRevAt (c :: cs) with
    | some (g, rest) => g :: findallRev fuel rest
    | none => findallRev fuel cs

/-- `re.findall` with the standard-layout pattern. -/
def findallStd : ℕ → List Char → List (Char × List Char × Char × List Char)
  | 0, _ => []
  | _, [] => []
  | fuel + 1, c :: cs =>
    match matchStdAt (c :: cs) with
    | some (g, rest) => g :: findallStd fuel rest
    | none => findallStd fuel cs

/-- Decode one matched token (`parse_dms(f"{dir}{val}")`).  The matched
groups are always all-digit strings of width 6 or 7, on which
`parse_dms` cannot fail, so the `Option` default is never taken. -/
def pdq (dir : Char) (val : List Char) : ℚ := (parse_dms (String.mk (dir :: val))).getD 0

/-- Reversed-layout groups to a `(lon, lat)` vertex. -/
def revToLonLat : List Char × Char × List Char × Char → ℚ × ℚ
  | (lat_val, lat_dir, lon_val, lon_dir) => (pdq lon_dir lon_val, pdq lat_dir lat_val)

/-- Standard-layout groups to a `(lon, lat)` vertex. -/
def stdToLonLat : Char × List Char × Char × List Char → ℚ × ℚ
  | (lat_dir, lat_val, lon_dir, lon_val) => (pdq lon_dir lon_val, pdq lat_dir lat_val)

/-- The closure fix-up: `if coords and coords[0] != coords[-1]:
coords.append(coords[0])`.  The parsed vertices are exact rationals, so
the Python float comparison is decided in `ℚ`. -/
def closeRing (coords : List (ℚ × ℚ)) : List (ℚ × ℚ) :=
  if coords ≠ [] ∧ coords.headD (0, 0) ≠ coords.getLastD (0, 0) then
    coords ++ [coords.headD (0, 0)]
  else coords

/-- `create_circle_polygon(center_lat, center_lon, radius_meters,
num_points)` (`create_kml_zones.py` lines 55-75): `num_points + 1`
vertices `(lon + Δlon·cos θᵢ, lat + Δlat·sin θᵢ)` with
`Δlat = radius/6378137 · 180/π`, `Δlon = Δlat / cos(lat·π/180)` and
`θᵢ = 2πi/num_points`. -/
noncomputable def create_circle_polygon (center_lat center_lon radius_meters : ℝ)
    (num_points : ℕ) : List (ℝ × ℝ) :=
  (List.range (num_points + 1)).map fun i : ℕ =>
    (center_lon + radius_meters / 6378137 * (180 / Real.pi) / Real.cos (center_lat * Real.pi / 180) *
        Real.cos (2 * Real.pi * (i : ℝ) / (num_points : ℝ)),
     center_lat + radius_meters / 6378137 * (180 / Real.pi) *
        Real.sin (2 * Real.pi * (i : ℝ) / (num_points : ℝ)))

/-- Circle output from the first reversed-layout pair. -/
noncomputable def circleOutRev (g : List Char × Char × List Char × Char) (radius : ℕ) :
    List (ℝ × ℝ) :=
  create_circle_polygon ((pdq g.2.1 g.1 : ℚ) : ℝ) ((pdq g.2.2.2 g.2.2.1 : ℚ) : ℝ) radius 36

/-- Circle output from the first standard-layout pair. -/
noncomputable def circleOutStd (g : Char × List Char × Char × List Char) (radius : ℕ) :
    List (ℝ × ℝ) :=
  create_circle_polygon ((pdq g.1 g.2.1 : ℚ) : ℝ) ((pdq g.2.2.1 g.2.2.2 : ℚ) : ℝ) radius 36

/-- Embed the exact polygon vertices into the real-valued output type. -/
noncomputable def castPts (l : List (ℚ × ℚ)) : List (ℝ × ℝ) :=
  l.map fun p => ((p.1 : ℝ), (p.2 : ℝ))

/-- `get_coords(coord_str)` (`create_kml_zones.py` lines 86-152):
normalise, detect the radius marker, try the reversed layout and then
the standard layout; a circle definition uses only the first pair as
center, a polygon definition decodes every pair and closes the ring;
no match yields the empty list. -/
noncomputable def get_coords (s : String) : List (ℝ × ℝ) :=
  if findallRev (normalizeCoord s).length (normalizeCoord s) ≠ [] then
    if circleFormat (normalizeCoord s) then
      circleOutRev ((findallRev (normalizeCoord s).length (normalizeCoord s)).headD
        ([], 'N', [], 'E')) (extract_radius (normalizeCoord s))
    else
      castPts (closeRing ((findallRev (normalizeCoord s).length (normalizeCoord s)).map
        revToLonLat))
  else if findallStd (normalizeCoord s).length (normalizeCoord s) ≠ [] then
    if circleFormat (normalizeCoord s) then
      circleOutStd ((findallStd (normalizeCoord s).length (normalizeCoord s)).headD
        ('N', [], 'E', [])) (extract_radius (normalizeCoord s))
    else
      castPts (closeRing ((findallStd (normalizeCoord s).length (normalizeCoord s)).map
        stdToLonLat))
  else []

/-! ### Shape classifier (`kml_to_word.py` lines 32-127)

A `SampleSet` entry is a `(lon, lat, alt)` triple.  The classifier's
comparisons on real numbers use classical decidability, mirroring the
total float comparisons of the source. -/

open scoped Classical

/-- One `(lon, lat, alt)` sample. -/
abbrev Sample : Type := ℝ × ℝ × ℝ

/-- First tuple component, the longitude. -/
def lonOf (p : Sample) : ℝ := p.1

/-- Second tuple component, the latitude. -/
def latOf (p : Sample) : ℝ := p.2.1

/-- Default sample, used only for the (never-taken) empty-list cases of
Python's `coordinates[0]` / `coordinates[-1]`. -/
noncomputable def pt0 : Sample := (0, 0, 0)

/-- Euclidean distance between the first and last sample (the closure
statistic of `analyze_shape`). -/
noncomputable def sampleGap (coordinates : List Sample) : ℝ :=
  Real.sqrt ((lonOf (coordinates.headD pt0) - lonOf (coordinates.getLastD pt0)) ^ 2 +
    (latOf (coordinates.headD pt0) - latOf (coordinates.getLastD pt0)) ^ 2)

/-- `is_closed`: first and last sample within `0.0001` degrees. -/
def isClosed (coordinates : List Sample) : Prop := sampleGap coordinates < 1 / 10000

/-- `center_lon`: arithmetic mean of the longitudes. -/
noncomputable def centerLon (coordinates : List Sample) : ℝ :=
  (coordinates.map lonOf).sum / coordinates.length

/-- `center_lat`: arithmetic mean of the latitudes. -/
noncomputable def centerLat (coordinates : List Sample) : ℝ :=
  (coordinates.map latOf).sum / coordinates.length

/-- `distances`: per-sample Euclidean distance from the centroid. -/
noncomputable def distList (coordinates : List Sample) : List ℝ :=
  coordinates.map fun p =>
    Real.sqrt ((lonOf p - centerLon coordinates) ^ 2 + (latOf p - centerLat coordinates) ^ 2)

/-- `avg_distance`: mean distance from the centroid. -/
noncomputable def avgDistance (coordinates : List Sample) : ℝ :=
  (distList coordinates).sum / coordinates.length

/-- `distance_variance`: variance of the centroid distances. -/
noncomputable def distVariance (coordinates : List Sample) : ℝ :=
  ((distList coordinates).map fun d => (d - avgDistance coordinates) ^ 2).sum /
    coordinates.length

/-- The relative-variance circle test `rel_variance < 0.005`.  The
source sets `rel_variance = inf` when `avg_distance` is zero, in which
case the comparison is false; hence the `0 < avg_distance` conjunct. -/
def relVarLt (coordinates : List Sample) : Prop :=
  0 < avgDistance coordinates ∧
    distVariance coordinates / avgDistance coordinates ^ 2 < 5 / 1000

/-- `sides[i]`: edge vector from point `i` to point `(i+1) % 4` of the
first four samples. -/
noncomputable def sideVec (coordinates : List Sample) (i : ℕ) : ℝ × ℝ :=
  (lonOf (coordinates.getD ((i + 1) % 4) pt0) - lonOf (coordinates.getD i pt0),
   latOf (coordinates.getD ((i + 1) % 4) pt0) - latOf (coordinates.getD i pt0))

/-- The rectangle test: both opposite edge pairs have 2D cross product
below `0.00001` in absolute value. -/
def parallelPred (coordinates : List Sample) : Prop :=
  |(sideVec coordinates 0).1 * (sideVec coordinates 2).2 -
      (sideVec coordinates 0).2 * (sideVec coordinates 2).1| < 1 / 100000 ∧
  |(sideVec coordinates 1).1 * (sideVec coordinates 3).2 -
      (sideVec coordinates 1).2 * (sideVec coordinates 3).1| < 1 / 100000

/-- Python's `l[::step]`: the elements whose index is a multiple of
`step`. -/
def everyNth (step : ℕ) (l : List α) : List α :=
  (l.enum.filter fun p => p.1 % step = 0).map Prod.snd

/-- The downsampling of `analyze_shape` for samples with more than 10
points: stride `max 1 (n / 10)`, re-appending the original last sample
when the figure is closed and the strided list does not end with it. -/
noncomputable def reduceCoords (coordinates : List Sample) : List Sample :=
  if isClosed coordinates ∧
      (everyNth (max 1 (coordinates.length / 10)) coordinates).getLastD pt0 ≠
        coordinates.getLastD pt0 then
    everyNth (max 1 (coordinates.length / 10)) coordinates ++ [coordinates.getLastD pt0]
  else everyNth (max 1 (coordinates.length / 10)) coordinates

/-- The data half of the classifier result: either a coordinate list or
a `(center_lat, center_lon, radius_meters)` circle. -/
inductive ShapeData : Type where
  | pts : List Sample → ShapeData
  | circ : ℝ → ℝ → ℝ → ShapeData

/-- `analyze_shape(coordinates, shape_type_hint)`: the decision
procedure of `kml_to_word.py` lines 32-127, with the statistics above
and each terminal `return` flattened into one conditional chain (the
source computes the statistics before branching; they are pure). -/
noncomputable def analyze_shape (coordinates : List Sample) (hint : Option String) :
    String × ShapeData :=
  if coordinates.length < 4 then ("point", ShapeData.pts coordinates)
  else if 50 < coordinates.length ∧ hint = some "line" ∧ isClosed coordinates then
    ("circle", ShapeData.circ (centerLat coordinates) (centerLon coordinates)
      (avgDistance coordinates * 111000))
  else if ((isClosed coordinates ∧ 10 < coordinates.length) ∨ hint = some "polygon") ∧
      relVarLt coordinates then
    ("circle", ShapeData.circ (centerLat coordinates) (centerLon coordinates)
      (avgDistance coordinates * 111000))
  else if coordinates.length < 10 then ("polygon", ShapeData.pts coordinates)
  else if coordinates.length = 5 ∧ isClosed coordinates ∧ parallelPred coordinates then
    ("rectangle", ShapeData.pts (coordinates.take 4))
  else if 10 < coordinates.length then
    (if isClosed coordinates then "complex_polygon" else "path",
      ShapeData.pts (reduceCoords coordinates))
  else if isClosed coordinates then ("polygon", ShapeData.pts coordinates)
  else ("path", ShapeData.pts coordinates)

/-- A 5-sample closed axis-aligned rectangle (corners `(0,0)`, `(2,0)`,
`(2,1)`, `(0,1)` with the first repeated), used as a classifier input. -/
noncomputable def rect5 : List Sample :=
  [(0, 0, 0), (2, 0, 0), (2, 1, 0), (0, 1, 0), (0, 0, 0)]

/-- A 10-sample open polyline (nine copies of the origin, then a point
one degree east), used as a classifier input. -/
noncomputable def open10 : List Sample := List.replicate 9 pt0 ++ [(1, 0, 0)]

/-! ### Lemmas: digits, stripping, `pyInt` -/

lemma isDig_cases {c : Char} (h : isDig c = true) :
    c = '0' ∨ c = '1' ∨ c = '2' ∨ c = '3' ∨ c = '4' ∨
    c = '5' ∨ c = '6' ∨ c = '7' ∨ c = '8' ∨ c = '9' := by
  simp only [isDig, Bool.or_eq_true, decide_eq_true_eq] at h
  tauto

lemma isDig_not_space {c : Char} (h : isDig c = true) : isPySpace c = false := by
  rcases isDig_cases h with h | h | h | h | h | h | h | h | h | h <;> subst h <;> rfl

lemma isDig_ne_plus {c : Char} (h : isDig c = true) : c ≠ '+' := by
  rcases isDig_cases h with h | h | h | h | h | h | h | h | h | h <;> subst h <;> decide

lemma isDig_ne_minus {c : Char} (h : isDig c = true) : c ≠ '-' := by
  rcases isDig_cases h with h | h | h | h | h | h | h | h | h | h <;> subst h <;> decide

lemma dropWhile_space_eq_self {l : List Char} (h : ∀ c ∈ l, isPySpace c = false) :
    l.dropWhile isPySpace = l := by
  cases l with
  | nil => rfl
  | cons a t => simp [List.dropWhile_cons, h a (by simp)]

lemma pyStrip_eq_self {l : List Char} (h : ∀ c ∈ l, isPySpace c = false) :
    pyStrip l = l := by
  unfold pyStrip
  rw [dropWhile_space_eq_self h, dropWhile_space_eq_self, List.reverse_reverse]
  intro c hc
  exact h c (by simpa using hc)

lemma allDig_no_space {l : List Char} (h : allDig l = true) :
    ∀ c ∈ l, isPySpace c = false := fun c hc =>
  isDig_not_space (List.all_eq_true.mp h c hc)

lemma pyInt_digits {l : List Char} (h0 : l ≠ []) (h1 : allDig l = true) :
    pyInt l = some (parseNatDigits l : ℤ) := by
  have hstrip := pyStrip_eq_self (allDig_no_space h1)
  cases l with
  | nil => exact absurd rfl h0
  | cons c rest =>
    have hc : isDig c = true := List.all_eq_true.mp h1 c (by simp)
    simp only [pyInt, hstrip]
    rw [if_neg (isDig_ne_plus hc), if_neg (isDig_ne_minus hc), if_pos h1]

lemma allDig_append {l₁ l₂ : List Char} (h₁ : allDig l₁ = true) (h₂ : allDig l₂ = true) :
    allDig (l₁ ++ l₂) = true := by
  simp only [allDig] at h₁ h₂ ⊢
  rw [List.all_append, h₁, h₂]
  rfl

lemma allDig_take {l : List Char} (h : allDig l = true) (n : ℕ) :
    allDig (l.take n) = true := by
  refine List.all_eq_true.mpr fun c hc => List.all_eq_true.mp h c ?_
  exact List.take_subset n l hc

lemma allDig_drop {l : List Char} (h : allDig l = true) (n : ℕ) :
    allDig (l.drop n) = true := by
  refine List.all_eq_true.mpr fun c hc => List.all_eq_true.mp h c ?_
  exact List.drop_subset n l hc

lemma allDig_zfill {l : List Char} (h : allDig l = true) (w : ℕ) :
    allDig (zfill w l) = true := by
  refine allDig_append ?_ h
  refine List.all_eq_true.mpr fun c hc => ?_
  rw [List.eq_of_mem_replicate hc]; rfl

lemma zfill_length (w : ℕ) (l : List Char) : w ≤ (zfill w l).length := by
  simp only [zfill, List.length_append, List.length_replicate]
  omega

/-- A non-empty all-digit slice parses to a natural number. -/
lemma pyInt_slice {l : List Char} (h : allDig l = true) (i n : ℕ) (hn : n ≠ 0)
    (hlen : i + n ≤ l.length) :
    pyInt ((l.drop i).take n) = some (parseNatDigits ((l.drop i).take n) : ℤ) := by
  have hathome : ((l.drop i).take n).length = n := by
    simp only [List.length_take, List.length_drop]
    omega
  refine pyInt_digits ?_ (allDig_take (allDig_drop h i) n)
  intro hcon
  rw [hcon] at hathome
  simp at hathome
  omega

/-! ### Lemmas: fixed-width formatting and token decoding -/

set_option maxRecDepth 40000 in
/-- Width-2 zero-padded formatting of `n < 100`: exactly two digit
characters, parsing back to `n`. -/
lemma fmt2_spec : ∀ n < 100, (fmtNat 2 n).length = 2 ∧ allDig (fmtNat 2 n) = true ∧
    parseNatDigits (fmtNat 2 n) = n := by decide

set_option maxRecDepth 400000 in
/-- Width-3 zero-padded formatting of `n < 1000`: exactly three digit
characters, parsing back to `n`. -/
lemma fmt3_spec : ∀ n < 1000, (fmtNat 3 n).length = 3 ∧ allDig (fmtNat 3 n) = true ∧
    parseNatDigits (fmtNat 3 n) = n := by decide

lemma allDig_of_parts {A B C : List Char} (dA : allDig A = true) (dB : allDig B = true)
    (dC : allDig C = true) : allDig (A ++ B ++ C) = true :=
  allDig_append (allDig_append dA dB) dC

/-- `latVal` on an explicit 2+2+2 digit split. -/
lemma latVal_split (A B C : List Char) (hA : A.length = 2) (hB : B.length = 2)
    (hC : C.length = 2) (dA : allDig A = true) (dB : allDig B = true) (dC : allDig C = true) :
    latVal (A ++ B ++ C) = some (((parseNatDigits A : ℤ) : ℚ) +
      ((parseNatDigits B : ℤ) : ℚ) / 60 + ((parseNatDigits C : ℤ) : ℚ) / 3600) := by
  have hlen : (A ++ B ++ C).length = 6 := by
    simp [List.length_append, hA, hB, hC]
  have htake : (A ++ B ++ C).take 2 = A := by
    rw [List.append_assoc]
    exact List.take_left' hA
  have hdrop2 : (A ++ B ++ C).drop 2 = B ++ C := by
    rw [List.append_assoc]
    exact List.drop_left' hA
  have htake2 : ((A ++ B ++ C).drop 2).take 2 = B := by
    rw [hdrop2]
    exact List.take_left' hB
  have hdrop4 : (A ++ B ++ C).drop 4 = C := by
    refine List.drop_left' ?_
    simp [List.length_append, hA, hB]
  have htake4 : ((A ++ B ++ C).drop 4).take 2 = C := by
    rw [hdrop4, ← hC, List.take_length]
  simp only [latVal, hlen, if_pos]
  rw [htake, htake2, htake4,
    pyInt_digits (by intro h; rw [h] at hA; simp at hA) dA,
    pyInt_digits (by intro h; rw [h] at hB; simp at hB) dB,
    pyInt_digits (by intro h; rw [h] at hC; simp at hC) dC]
  rfl

/-- `lonVal` on an explicit 3+2+2 digit split. -/
lemma lonVal_split (A B C : List Char) (hA : A.length = 3) (hB : B.length = 2)
    (hC : C.length = 2) (dA : allDig A = true) (dB : allDig B = true) (dC : allDig C = true) :
    lonVal (A ++ B ++ C) = some (((parseNatDigits A : ℤ) : ℚ) +
      ((parseNatDigits B : ℤ) : ℚ) / 60 + ((parseNatDigits C : ℤ) : ℚ) / 3600) := by
  have hlen : (A ++ B ++ C).length = 7 := by
    simp [List.length_append, hA, hB, hC]
  have htake : (A ++ B ++ C).take 3 = A := by
    rw [List.append_assoc]
    exact List.take_left' hA
  have hdrop3 : (A ++ B ++ C).drop 3 = B ++ C := by
    rw [List.append_assoc]
    exact List.drop_left' hA
  have htake3 : ((A ++ B ++ C).drop 3).take 2 = B := by
    rw [hdrop3]
    exact List.take_left' hB
  have hdrop5 : (A ++ B ++ C).drop 5 = C := by
    refine List.drop_left' ?_
    simp [List.length_append, hA, hB]
  have htake5 : ((A ++ B ++ C).drop 5).take 2 = C := by
    rw [hdrop5, ← hC, List.take_length]
  simp only [lonVal, hlen, if_pos]
  rw [htake, htake3, htake5,
    pyInt_digits (by intro h; rw [h] at hA; simp at hA) dA,
    pyInt_digits (by intro h; rw [h] at hB; simp at hB) dB,
    pyInt_digits (by intro h; rw [h] at hC; simp at hC) dC]
  rfl

/-- `parse_dms` on a direction letter followed by an all-digit tail:
strip is the identity and the match structure reduces. -/
lemma parse_dms_cons (dir : Char) (ds : List Char) (hdir : isPySpace dir = false)
    (hds : allDig ds = true) :
    parse_dms (String.mk (dir :: ds)) =
      (if dir = 'E' ∨ dir = 'W' then lonVal ds else latVal ds).map
        (fun dec => if dir = 'S' ∨ dir = 'W' then -dec else dec) := by
  have hall : ∀ c ∈ dir :: ds, isPySpace c = false := by
    intro c hc
    rcases List.mem_cons.mp hc with h | h
    · exact h ▸ hdir
    · exact allDig_no_space hds c h
  have hstrip : pyStrip (dir :: ds) = dir :: ds := pyStrip_eq_self hall
  have hstrip2 : pyStrip ds = ds :=
    pyStrip_eq_self (allDig_no_space hds)
  show (match pyStrip (String.mk (dir :: ds)).data with
      | [] => none
      | direction :: tail =>
        (if direction = 'E' ∨ direction = 'W' then lonVal (pyStrip tail)
         else latVal (pyStrip tail)).map
          (fun dec => if direction = 'S' ∨ direction = 'W' then -dec else dec)) = _
  rw [show (String.mk (dir :: ds)).data = dir :: ds from rfl, hstrip]
  show (if dir = 'E' ∨ dir = 'W' then lonVal (pyStrip ds) else latVal (pyStrip ds)).map
      (fun dec => if dir = 'S' ∨ dir = 'W' then -dec else dec) = _
  rw [hstrip2]

/-- The truncation steps of `decimal_to_dms` recover `d`, `m`, `s`
exactly from `d + m/60 + s/3600` when `m, s < 60`. -/
lemma dms_floor_steps (d m s : ℕ) (hm : m < 60) (hs : s < 60) (a : ℚ)
    (ha : a = (d : ℚ) + (m : ℚ) / 60 + (s : ℚ) / 3600) :
    ((Int.floor a).toNat = d ∧ (Int.floor ((a - ((Int.floor a).toNat : ℕ)) * 60)).toNat = m) ∧
      (Int.floor (((a - ((Int.floor a).toNat : ℕ)) * 60 -
        ((Int.floor ((a - ((Int.floor a).toNat : ℕ)) * 60)).toNat : ℕ)) * 60)).toNat = s := by
  have hm59 : (m : ℚ) ≤ 59 := by exact_mod_cast Nat.lt_succ_iff.mp hm
  have hs59 : (s : ℚ) ≤ 59 := by exact_mod_cast Nat.lt_succ_iff.mp hs
  have hm0 : (0 : ℚ) ≤ (m : ℚ) := by positivity
  have hs0 : (0 : ℚ) ≤ (s : ℚ) := by positivity
  have hfd : Int.floor a = (d : ℤ) := by
    rw [ha, show (d : ℚ) + (m : ℚ) / 60 + (s : ℚ) / 3600 =
      ((d : ℤ) : ℚ) + ((m : ℚ) / 60 + (s : ℚ) / 3600) by push_cast; ring_nf,
      Int.floor_int_add]
    have : Int.floor ((m : ℚ) / 60 + (s : ℚ) / 3600) = 0 := by
      rw [Int.floor_eq_zero_iff]
      constructor
      · positivity
      · show (m : ℚ) / 60 + (s : ℚ) / 3600 < 1
        linarith
    rw [this, add_zero]
  have hd : (Int.floor a).toNat = d := by rw [hfd]; exact Int.toNat_natCast d
  have hmin : (a - ((Int.floor a).toNat : ℕ)) * 60 = (m : ℚ) + (s : ℚ) / 60 := by
    rw [hd, ha]; ring
  have hfm : Int.floor ((a - ((Int.floor a).toNat : ℕ)) * 60) = (m : ℤ) := by
    rw [hmin, show (m : ℚ) + (s : ℚ) / 60 = ((m : ℤ) : ℚ) + (s : ℚ) / 60 by push_cast; ring_nf,
      Int.floor_int_add]
    have : Int.floor ((s : ℚ) / 60) = 0 := by
      rw [Int.floor_eq_zero_iff]
      constructor
      · positivity
      · show (s : ℚ) / 60 < 1
        linarith
    rw [this, add_zero]
  have hmn : (Int.floor ((a - ((Int.floor a).toNat : ℕ)) * 60)).toNat = m := by
    rw [hfm]; exact Int.toNat_natCast m
  refine ⟨⟨hd, hmn⟩, ?_⟩
  have hsec : ((a - ((Int.floor a).toNat : ℕ)) * 60 -
      ((Int.floor ((a - ((Int.floor a).toNat : ℕ)) * 60)).toNat : ℕ)) * 60 = (s : ℚ) := by
    rw [hmn, hmin]; ring
  rw [hsec, Int.floor_natCast]
  exact Int.toNat_natCast s

/-- `decimal_to_dms` with the latitude flag, on a value whose absolute
value is an exact DMS fraction with `d < 100`. -/
lemma decimal_to_dms_lat (v : ℚ) (d m s : ℕ) (hm : m < 60) (hs : s < 60)
    (hv : |v| = (d : ℚ) + (m : ℚ) / 60 + (s : ℚ) / 3600) :
    decimal_to_dms v true =
      String.mk ((if 0 ≤ v then 'N' else 'S') :: (fmtNat 2 d ++ fmtNat 2 m ++ fmtNat 2 s)) := by
  obtain ⟨⟨hd, hmn⟩, hsn⟩ := dms_floor_steps d m s hm hs |v| hv
  simp only [decimal_to_dms]
  rw [if_pos trivial, hsn, hmn, hd]

/-- `decimal_to_dms` with the longitude flag, `d < 1000`. -/
lemma decimal_to_dms_lon (v : ℚ) (d m s : ℕ) (hm : m < 60) (hs : s < 60)
    (hv : |v| = (d : ℚ) + (m : ℚ) / 60 + (s : ℚ) / 3600) :
    decimal_to_dms v false =
      String.mk ((if 0 ≤ v then 'E' else 'W') :: (fmtNat 3 d ++ fmtNat 2 m ++ fmtNat 2 s)) := by
  obtain ⟨⟨hd, hmn⟩, hsn⟩ := dms_floor_steps d m s hm hs |v| hv
  simp only [decimal_to_dms]
  rw [if_neg (by simp), hsn, hmn, hd]

/-- Decoding a freshly formatted latitude-grouping token. -/
lemma parse_tok_lat (dir : Char) (hsp : isPySpace dir = false) (hEW : ¬(dir = 'E' ∨ dir = 'W'))
    (d m s : ℕ) (hd : d < 100) (hm : m < 60) (hs : s < 60) :
    parse_dms (String.mk (dir :: (fmtNat 2 d ++ fmtNat 2 m ++ fmtNat 2 s))) =
      some (if dir = 'S' ∨ dir = 'W' then -((d : ℚ) + m / 60 + s / 3600)
        else ((d : ℚ) + m / 60 + s / 3600)) := by
  obtain ⟨ld, ad, pd⟩ := fmt2_spec d hd
  obtain ⟨lm, am, pm⟩ := fmt2_spec m (lt_trans hm (by norm_num))
  obtain ⟨ls, as2, ps⟩ := fmt2_spec s (lt_trans hs (by norm_num))
  rw [parse_dms_cons dir _ hsp (allDig_of_parts ad am as2), if_neg hEW,
    latVal_split _ _ _ ld lm ls ad am as2, pd, pm, ps]
  simp only [Option.map_some', Int.cast_natCast]

/-- Decoding a freshly formatted longitude-grouping token. -/
lemma parse_tok_lon (dir : Char) (hsp : isPySpace dir = false) (hEW : dir = 'E' ∨ dir = 'W')
    (d m s : ℕ) (hd : d < 1000) (hm : m < 60) (hs : s < 60) :
    parse_dms (String.mk (dir :: (fmtNat 3 d ++ fmtNat 2 m ++ fmtNat 2 s))) =
      some (if dir = 'S' ∨ dir = 'W' then -((d : ℚ) + m / 60 + s / 3600)
        else ((d : ℚ) + m / 60 + s / 3600)) := by
  obtain ⟨ld, ad, pd⟩ := fmt3_spec d hd
  obtain ⟨lm, am, pm⟩ := fmt2_spec m (lt_trans hm (by norm_num))
  obtain ⟨ls, as2, ps⟩ := fmt2_spec s (lt_trans hs (by norm_num))
  rw [parse_dms_cons dir _ hsp (allDig_of_parts ad am as2), if_pos hEW,
    lonVal_split _ _ _ ld lm ls ad am as2, pd, pm, ps]
  simp only [Option.map_some', Int.cast_natCast]

/-! ### Evaluating the binary64 rounding at explicit points -/

lemma RN_log_eq (q : ℚ) (k : ℕ) (hq : 0 < q)
    (hlo : (2 : ℚ) ^ 52 ≤ q * 2 ^ k) (hhi : q * 2 ^ k < 2 ^ 53) :
    Int.log 2 q = 52 - (k : ℤ) := by
  have hle : 52 - (k : ℤ) ≤ Int.log 2 q := by
    refine (Int.zpow_le_iff_le_log (by norm_num) hq).mp ?_
    rw [show ((2 : ℕ) : ℚ) = 2 from by norm_num,
      zpow_sub₀ (by norm_num : (2 : ℚ) ≠ 0), div_le_iff₀ (by positivity), zpow_natCast]
    calc (2 : ℚ) ^ (52 : ℤ) = 2 ^ (52 : ℕ) := by norm_num
    _ ≤ q * 2 ^ k := hlo
  have hlt : Int.log 2 q < 53 - (k : ℤ) := by
    refine (Int.lt_zpow_iff_log_lt (by norm_num) hq).mp ?_
    rw [show ((2 : ℕ) : ℚ) = 2 from by norm_num,
      zpow_sub₀ (by norm_num : (2 : ℚ) ≠ 0), lt_div_iff₀ (by positivity), zpow_natCast]
    calc q * 2 ^ k < 2 ^ (53 : ℕ) := hhi
    _ = (2 : ℚ) ^ (53 : ℤ) := by norm_num
  omega

lemma RN_pos_of_bounds (q : ℚ) (k : ℕ)
    (hlo : (2 : ℚ) ^ 52 ≤ q * 2 ^ k) : 0 < q := by
  have h2k : (0 : ℚ) < 2 ^ k := by positivity
  rcases lt_trichotomy q 0 with h | h | h
  · have hneg : q * 2 ^ k < 0 := mul_neg_of_neg_of_pos h h2k
    have := pow_pos (show (0 : ℚ) < 2 by norm_num) 52
    linarith
  · rw [h, zero_mul] at hlo
    have := pow_pos (show (0 : ℚ) < 2 by norm_num) 52
    linarith
  · exact h

lemma RN_scaled (q : ℚ) (k : ℕ) (hq : 0 < q)
    (hlo : (2 : ℚ) ^ 52 ≤ q * 2 ^ k) (hhi : q * 2 ^ k < 2 ^ 53) :
    RN q = ((if q * 2 ^ k - (Int.floor (q * 2 ^ k) : ℚ) < 1 / 2 then Int.floor (q * 2 ^ k)
      else if 1 / 2 < q * 2 ^ k - (Int.floor (q * 2 ^ k) : ℚ) then Int.floor (q * 2 ^ k) + 1
      else if Int.floor (q * 2 ^ k) % 2 = 0 then Int.floor (q * 2 ^ k)
      else Int.floor (q * 2 ^ k) + 1 : ℤ) : ℚ) / 2 ^ k := by
  have hx : q / (2 : ℚ) ^ ((52 - (k : ℤ)) - 52) = q * 2 ^ k := by
    rw [show (52 - (k : ℤ)) - 52 = -(k : ℤ) by ring, zpow_neg, zpow_natCast,
      div_eq_mul_inv, inv_inv]
  have h2e : (2 : ℚ) ^ ((52 - (k : ℤ)) - 52) = (2 ^ k)⁻¹ := by
    rw [show (52 - (k : ℤ)) - 52 = -(k : ℤ) by ring, zpow_neg, zpow_natCast]
  unfold RN
  rw [if_neg (ne_of_gt hq), if_neg (not_lt.mpr (le_of_lt hq))]
  simp only [RNpos]
  rw [RN_log_eq q k hq hlo hhi, hx, h2e]
  ring

/-- Evaluation rule for `RN` when the scaled significand rounds down
(also the exact case). -/
lemma RN_eval_down (q : ℚ) (k : ℕ) (f : ℤ)
    (hlo : (2 : ℚ) ^ 52 ≤ q * 2 ^ k) (hhi : q * 2 ^ k < 2 ^ 53)
    (hf1 : (f : ℚ) ≤ q * 2 ^ k) (hf2 : q * 2 ^ k < (f : ℚ) + 1 / 2) :
    RN q = (f : ℚ) / 2 ^ k := by
  have hq := RN_pos_of_bounds q k hlo
  have hfl : Int.floor (q * 2 ^ k) = f := by
    rw [Int.floor_eq_iff]
    exact ⟨hf1, by push_cast; linarith⟩
  rw [RN_scaled q k hq hlo hhi, hfl, if_pos (by linarith)]

/-- Evaluation rule for `RN` when the scaled significand rounds up. -/
lemma RN_eval_up (q : ℚ) (k : ℕ) (f : ℤ)
    (hlo : (2 : ℚ) ^ 52 ≤ q * 2 ^ k) (hhi : q * 2 ^ k < 2 ^ 53)
    (hf1 : (f : ℚ) ≤ q * 2 ^ k) (hmid : (f : ℚ) + 1 / 2 < q * 2 ^ k)
    (hf2 : q * 2 ^ k < (f : ℚ) + 1) :
    RN q = ((f : ℚ) + 1) / 2 ^ k := by
  have hq := RN_pos_of_bounds q k hlo
  have hfl : Int.floor (q * 2 ^ k) = f := by
    rw [Int.floor_eq_iff]
    exact ⟨hf1, by push_cast; linarith⟩
  rw [RN_scaled q k hq hlo hhi, hfl, if_neg (by linarith), if_pos (by linarith)]
  push_cast
  ring

/-- The DMS text round-trip in exact rational arithmetic: for every
valid fixed-width token, re-encoding the decoded value reproduces a
token that decodes to exactly the same value.  This isolates the cause
of the round-trip defect recorded under C3 below: the truncation chain
of `decimal_to_dms` is lossless on exact DMS fractions, so the
second-of-arc drop the program exhibits comes entirely from binary64
rounding of the decoded value, not from the chain itself. -/
lemma dms_roundtrip_exact_arith (dir : Char) (d m s : ℕ) (hm : m < 60) (hs : s < 60)
    (hdir : ((dir = 'N' ∨ dir = 'S') ∧ d < 100) ∨ ((dir = 'E' ∨ dir = 'W') ∧ d < 1000)) :
    parse_dms (String.mk (dir ::
        (fmtNat (if dir = 'E' ∨ dir = 'W' then 3 else 2) d ++ fmtNat 2 m ++ fmtNat 2 s))) =
      some ((if dir = 'S' ∨ dir = 'W' then -1 else 1) * ((d : ℚ) + m / 60 + s / 3600)) ∧
    parse_dms (decimal_to_dms
        ((if dir = 'S' ∨ dir = 'W' then -1 else 1) * ((d : ℚ) + m / 60 + s / 3600))
        (if dir = 'E' ∨ dir = 'W' then false else true)) =
      some ((if dir = 'S' ∨ dir = 'W' then -1 else 1) * ((d : ℚ) + m / 60 + s / 3600)) := by
  have hx : (0 : ℚ) ≤ (d : ℚ) + m / 60 + s / 3600 := by positivity
  have habs : |-((d : ℚ) + m / 60 + s / 3600)| = (d : ℚ) + m / 60 + s / 3600 := by
    rw [abs_neg, abs_of_nonneg hx]
  rcases hdir with ⟨hNS, hd⟩ | ⟨hEW, hd⟩
  · rcases hNS with h | h <;> subst h
    · have eNE : ('N' = 'E') = False := eq_false (by decide)
      have eNW : ('N' = 'W') = False := eq_false (by decide)
      have eNS : ('N' = 'S') = False := eq_false (by decide)
      simp only [eNE, eNW, eNS, or_self, if_false, one_mul]
      constructor
      · rw [parse_tok_lat 'N' rfl (by decide) d m s hd hm hs]
        try simp only [eNS, eNW, or_self, if_false]
      · rw [decimal_to_dms_lat _ d m s hm hs (abs_of_nonneg hx), if_pos hx,
          parse_tok_lat 'N' rfl (by decide) d m s hd hm hs]
        try simp only [eNS, eNW, or_self, if_false]
    · have eSE : ('S' = 'E') = False := eq_false (by decide)
      have eSW : ('S' = 'W') = False := eq_false (by decide)
      simp only [eSE, eSW, eq_self_iff_true, true_or, or_self, if_false, if_true, neg_one_mul]
      constructor
      · rw [parse_tok_lat 'S' rfl (by decide) d m s hd hm hs]
        try simp only [eq_self_iff_true, true_or, if_true]
      · rw [decimal_to_dms_lat _ d m s hm hs habs]
        rcases le_or_lt 0 (-((d : ℚ) + m / 60 + s / 3600)) with h0 | h0
        · have hx0 : (d : ℚ) + m / 60 + s / 3600 = 0 := le_antisymm (by linarith) hx
          rw [if_pos h0, parse_tok_lat 'N' rfl (by decide) d m s hd hm hs,
            if_neg (by decide : ¬('N' = 'S' ∨ 'N' = 'W')), hx0, neg_zero]
        · rw [if_neg (not_le.mpr h0), parse_tok_lat 'S' rfl (by decide) d m s hd hm hs,
            if_pos (by decide : ('S' = 'S' ∨ 'S' = 'W'))]
  · rcases hEW with h | h <;> subst h
    · have eES : ('E' = 'S') = False := eq_false (by decide)
      have eEW : ('E' = 'W') = False := eq_false (by decide)
      simp only [eES, eEW, eq_self_iff_true, true_or, or_self, if_true, if_false, one_mul]
      constructor
      · rw [parse_tok_lon 'E' rfl (by decide) d m s hd hm hs]
        try simp only [eES, eEW, or_self, if_false]
      · rw [decimal_to_dms_lon _ d m s hm hs (abs_of_nonneg hx), if_pos hx,
          parse_tok_lon 'E' rfl (by decide) d m s hd hm hs]
        try simp only [eES, eEW, or_self, if_false]
    · have eWE : ('W' = 'E') = False := eq_false (by decide)
      have eWS : ('W' = 'S') = False := eq_false (by decide)
      simp only [eWE, eWS, eq_self_iff_true, or_true, if_true, neg_one_mul]
      constructor
      · rw [parse_tok_lon 'W' rfl (by decide) d m s hd hm hs]
        try simp only [eq_self_iff_true, or_true, if_true]
      · rw [decimal_to_dms_lon _ d m s hm hs habs]
        rcases le_or_lt 0 (-((d : ℚ) + m / 60 + s / 3600)) with h0 | h0
        · have hx0 : (d : ℚ) + m / 60 + s / 3600 = 0 := le_antisymm (by linarith) hx
          rw [if_pos h0, parse_tok_lon 'E' rfl (by decide) d m s hd hm hs,
            if_neg (by decide : ¬('E' = 'S' ∨ 'E' = 'W')), hx0, neg_zero]
        · rw [if_neg (not_le.mpr h0), parse_tok_lon 'W' rfl (by decide) d m s hd hm hs,
            if_pos (by decide : ('W' = 'S' ∨ 'W' = 'W'))]

/-- C3: the claimed round-trip is the code's intent (the spec's test
list expects `"N433604"` to re-encode as `"N433604"`), but the program
computes on binary64 floats, where it fails: for the valid token
`"N433604"` — decoded fields (43, 36, 4) — the float value produced by
`parse_dms` runs through the truncation chain of `decimal_to_dms` and
emits seconds field 3, i.e. the token `"N433603"`, one second below
the original, because `(minutes_float - minutes) * 60` evaluates to
`17592186044385 / 2^42 ≈ 3.9999999999929514` and `int()` truncates.
The first conjunct fixes the decoded fields, the second evaluates the
correctly-rounded binary64 pipeline, the third states the mismatch. -/
theorem C3_float_truncation_bug :
    parse_dms "N433604" = some ((43 : ℚ) + 36 / 60 + 4 / 3600) ∧
    dmsFieldsFP (dmsToDecFP 43 36 4) = (43, 36, 3) ∧
    ((43, 36, 3) : ℤ × ℤ × ℤ) ≠ ((43, 36, 4) : ℤ × ℤ × ℤ) := by
  refine ⟨?_, ?_, by decide⟩
  · show parse_dms (String.mk ('N' :: "433604".data)) = _
    rw [parse_dms_cons 'N' _ rfl (by decide),
      if_neg (by decide : ¬('N' = 'E' ∨ 'N' = 'W')),
      show ("433604".data : List Char) = "43".data ++ "36".data ++ "04".data from rfl,
      latVal_split "43".data "36".data "04".data rfl rfl rfl (by decide) (by decide)
        (by decide),
      show parseNatDigits "43".data = 43 from rfl, show parseNatDigits "36".data = 36 from rfl,
      show parseNatDigits "04".data = 4 from rfl]
    simp only [Option.map_some', if_neg (by decide : ¬('N' = 'S' ∨ 'N' = 'W')),
      Int.cast_natCast]
    norm_num
  · have e1 : RN ((36 : ℚ) / 60) = 5404319552844595 / 9007199254740992 := by
      rw [RN_eval_down ((36 : ℚ) / 60) 53 5404319552844595 (by norm_num) (by norm_num)
        (by norm_num) (by norm_num)]
      norm_num
    have e2 : RN ((43 : ℚ) + 5404319552844595 / 9007199254740992) =
        6136154492292301 / 140737488355328 := by
      rw [RN_eval_up ((43 : ℚ) + 5404319552844595 / 9007199254740992) 47 6136154492292300
        (by norm_num) (by norm_num) (by norm_num) (by norm_num) (by norm_num)]
      norm_num
    have e3 : RN ((4 : ℚ) / 3600) = 5124095576030431 / 4611686018427387904 := by
      rw [RN_eval_down ((4 : ℚ) / 3600) 62 5124095576030431 (by norm_num) (by norm_num)
        (by norm_num) (by norm_num)]
      norm_num
    have e4 : RN ((6136154492292301 : ℚ) / 140737488355328 +
        5124095576030431 / 4611686018427387904) = 3068155433639681 / 70368744177664 := by
      rw [RN_eval_down _ 47 6136310867279362 (by norm_num) (by norm_num)
        (by norm_num) (by norm_num)]
      norm_num
    have hv : dmsToDecFP 43 36 4 = 3068155433639681 / 70368744177664 := by
      unfold dmsToDecFP
      push_cast
      rw [e1, e2, e3, e4]
    have hdeg : Int.floor ((3068155433639681 : ℚ) / 70368744177664) = 43 := by
      rw [Int.floor_eq_iff]
      constructor
      · push_cast
        norm_num
      · push_cast
        norm_num
    have e5 : RN ((3068155433639681 : ℚ) / 70368744177664 - 43) =
        42299434000129 / 70368744177664 := by
      rw [RN_eval_down _ 53 5414327552016512 (by norm_num) (by norm_num)
        (by norm_num) (by norm_num)]
      norm_num
    have e6 : RN ((42299434000129 : ℚ) / 70368744177664 * 60) =
        634491510001935 / 17592186044416 := by
      rw [RN_eval_down _ 47 5075932080015480 (by norm_num) (by norm_num)
        (by norm_num) (by norm_num)]
      norm_num
    have hmin : Int.floor ((634491510001935 : ℚ) / 17592186044416) = 36 := by
      rw [Int.floor_eq_iff]
      constructor
      · push_cast
        norm_num
      · push_cast
        norm_num
    have e7 : RN ((634491510001935 : ℚ) / 17592186044416 - 36) =
        1172812402959 / 17592186044416 := by
      rw [RN_eval_down _ 56 4803839602520064 (by norm_num) (by norm_num)
        (by norm_num) (by norm_num)]
      norm_num
    have e8 : RN ((1172812402959 : ℚ) / 17592186044416 * 60) =
        17592186044385 / 4398046511104 := by
      rw [RN_eval_down _ 51 9007199254725120 (by norm_num) (by norm_num)
        (by norm_num) (by norm_num)]
      norm_num
    have hsec : Int.floor ((17592186044385 : ℚ) / 4398046511104) = 3 := by
      rw [Int.floor_eq_iff]
      constructor
      · push_cast
        norm_num
      · push_cast
        norm_num
    rw [hv]
    unfold dmsFieldsFP
    rw [hdeg]
    push_cast
    rw [e5, e6, hmin]
    push_cast
    rw [e7, e8, hsec]

/-- On an all-digit tail, the latitude branch always produces a
nonnegative value (zero-padding supplies any missing width). -/
lemma latVal_digits {ds : List Char} (h : allDig ds = true) :
    ∃ q : ℚ, latVal ds = some q ∧ 0 ≤ q := by
  have key : ∀ l : List Char, allDig l = true → 6 ≤ l.length →
      ∃ q : ℚ, ((pyInt (l.take 2)).bind fun d => (pyInt ((l.drop 2).take 2)).bind fun m =>
        (pyInt ((l.drop 4).take 2)).bind fun s =>
          some ((d : ℚ) + (m : ℚ) / 60 + (s : ℚ) / 3600)) = some q ∧ 0 ≤ q := by
    intro l hdg hlen
    have h2 := pyInt_slice hdg 0 2 (by norm_num) (by omega)
    have h3 := pyInt_slice hdg 2 2 (by norm_num) (by omega)
    have h4 := pyInt_slice hdg 4 2 (by norm_num) (by omega)
    rw [List.drop_zero] at h2
    rw [h2, h3, h4]
    refine ⟨_, rfl, ?_⟩
    positivity
  by_cases hlen : ds.length = 6
  · simpa only [latVal, if_pos hlen] using key ds h (by omega)
  · simpa only [latVal, if_neg hlen] using
      key (zfill 6 ds) (allDig_zfill h 6) (zfill_length 6 ds)

/-- On an all-digit tail, the longitude branch always produces a
nonnegative value. -/
lemma lonVal_digits {ds : List Char} (h : allDig ds = true) :
    ∃ q : ℚ, lonVal ds = some q ∧ 0 ≤ q := by
  have key : ∀ l : List Char, allDig l = true → 7 ≤ l.length →
      ∃ q : ℚ, ((pyInt (l.take 3)).bind fun d => (pyInt ((l.drop 3).take 2)).bind fun m =>
        (pyInt ((l.drop 5).take 2)).bind fun s =>
          some ((d : ℚ) + (m : ℚ) / 60 + (s : ℚ) / 3600)) = some q ∧ 0 ≤ q := by
    intro l hdg hlen
    have h2 := pyInt_slice hdg 0 3 (by norm_num) (by omega)
    have h3 := pyInt_slice hdg 3 2 (by norm_num) (by omega)
    have h4 := pyInt_slice hdg 5 2 (by norm_num) (by omega)
    rw [List.drop_zero] at h2
    rw [h2, h3, h4]
    refine ⟨_, rfl, ?_⟩
    positivity
  by_cases hlen : ds.length = 7
  · simpa only [lonVal, if_pos hlen] using key ds h (by omega)
  · simpa only [lonVal, if_neg hlen] using
      key (zfill 7 ds) (allDig_zfill h 7) (zfill_length 7 ds)

/-- C7: `parse_dms` never raises on a token whose direction letter is
followed only by digits — a digit string shorter than the expected
width is left-padded with zeros before splitting — and in particular
`parse_dms "N4336"` equals `parse_dms "N004336"`. -/
theorem C7_parse_dms_total :
    (∀ (dir : Char) (ds : List Char), isPySpace dir = false → allDig ds = true →
      (parse_dms (String.mk (dir :: ds))).isSome = true) ∧
    parse_dms "N4336" = parse_dms "N004336" := by
  constructor
  · intro dir ds h1 h2
    rw [parse_dms_cons dir ds h1 h2]
    by_cases hEW : dir = 'E' ∨ dir = 'W'
    · rw [if_pos hEW]
      obtain ⟨q, hq, _⟩ := lonVal_digits h2
      rw [hq]
      rfl
    · rw [if_neg hEW]
      obtain ⟨q, hq, _⟩ := latVal_digits h2
      rw [hq]
      rfl
  · rfl

/-- Witness for C7 at the short token `"N4336"`. -/
theorem C7_parse_dms_total_witness :
    isPySpace 'N' = false ∧ allDig "4336".data = true ∧
    (parse_dms (String.mk ('N' :: "4336".data))).isSome = true :=
  ⟨rfl, by decide, C7_parse_dms_total.1 'N' "4336".data rfl (by decide)⟩

/-- C10: a token whose first character is not `E` or `W` is decoded
with the 6-digit latitude grouping; the result is negated exactly when
that character is `S`, and otherwise equals the value of the
corresponding `N` token, which is nonnegative. -/
theorem C10_non_ew_direction (dir : Char) (ds : List Char) (h1 : dir ≠ 'E') (h2 : dir ≠ 'W')
    (h3 : isPySpace dir = false) (h4 : allDig ds = true) :
    parse_dms (String.mk (dir :: ds)) =
      (if dir = 'S' then (parse_dms (String.mk ('N' :: ds))).map (fun q => -q)
       else parse_dms (String.mk ('N' :: ds))) ∧
    ∀ v, parse_dms (String.mk ('N' :: ds)) = some v → 0 ≤ v := by
  have hEWdir : ¬(dir = 'E' ∨ dir = 'W') := by tauto
  have hEWN : ¬('N' = 'E' ∨ 'N' = 'W') := by decide
  have hSWN : ¬('N' = 'S' ∨ 'N' = 'W') := by decide
  rw [parse_dms_cons dir ds h3 h4, parse_dms_cons 'N' ds rfl h4, if_neg hEWdir, if_neg hEWN]
  obtain ⟨q, hq, hq0⟩ := latVal_digits h4
  rw [hq]
  constructor
  · by_cases hS : dir = 'S'
    · subst hS
      rw [if_pos rfl]
      simp only [Option.map_some']
      rw [if_pos (Or.inl trivial : True ∨ 'S' = 'W'), if_neg hSWN]
    · have hSW : ¬(dir = 'S' ∨ dir = 'W') := by tauto
      rw [if_neg hS]
      simp only [Option.map_some']
      rw [if_neg hSW, if_neg hSWN]
  · intro v hv
    simp only [Option.map_some'] at hv
    rw [if_neg hSWN, Option.some_inj] at hv
    exact hv ▸ hq0

/-- Witness for C10 at the unknown direction letter `'X'`. -/
theorem C10_non_ew_direction_witness :
    ('X' ≠ 'E' ∧ 'X' ≠ 'W' ∧ isPySpace 'X' = false ∧ allDig "433604".data = true) ∧
    (parse_dms (String.mk ('X' :: "433604".data)) =
      (if 'X' = 'S' then (parse_dms (String.mk ('N' :: "433604".data))).map (fun q => -q)
       else parse_dms (String.mk ('N' :: "433604".data))) ∧
    ∀ v, parse_dms (String.mk ('N' :: "433604".data)) = some v → 0 ≤ v) :=
  ⟨⟨by decide, by decide, rfl, by decide⟩,
    C10_non_ew_direction 'X' "433604".data (by decide) (by decide) rfl (by decide)⟩

/-! ### Lemmas: ring closure in the extractor -/

lemma getLast?_cons_eq_getLastD {α : Type} (a : α) (t : List α) (d : α) :
    (a :: t).getLast? = some ((a :: t).getLastD d) := by
  induction t generalizing a d with
  | nil => rfl
  | cons b t ih =>
    rw [List.getLast?_cons_cons]
    have hstep : (a :: b :: t).getLastD d = (b :: t).getLastD a := rfl
    rw [hstep]
    exact ih b a

/-- Whatever `closeRing` returns starts and ends with the same vertex
(vacuously for the empty list). -/
lemma closeRing_head_last (l : List (ℚ × ℚ)) :
    (closeRing l).head? = (closeRing l).getLast? := by
  unfold closeRing
  split_ifs with h
  · obtain ⟨hne, _⟩ := h
    cases l with
    | nil => exact absurd rfl hne
    | cons a t =>
      rw [List.getLast?_concat]
      rfl
  · cases l with
    | nil => rfl
    | cons a t =>
      have heq : (a :: t).headD (0, 0) = (a :: t).getLastD (0, 0) := by
        rcases not_and_or.mp h with h1 | h2
        · exact absurd (List.cons_ne_nil a t) h1
        · exact not_not.mp h2
      rw [getLast?_cons_eq_getLastD a t (0, 0), ← heq]
      rfl

/-- C6: on every input without a radius marker (polygon mode), a
non-empty `get_coords` result is a closed ring — its first and last
vertices coincide. -/
theorem C6_polygon_ring_closed (s : String)
    (hpoly : circleFormat (normalizeCoord s) = false) (hne : get_coords s ≠ []) :
    (get_coords s).head? = (get_coords s).getLast? := by
  have main : ∀ l : List (ℚ × ℚ),
      (castPts (closeRing l)).head? = (castPts (closeRing l)).getLast? := by
    intro l
    unfold castPts
    rw [List.head?_map, List.getLast?_map, closeRing_head_last]
  unfold get_coords
  by_cases hrev : findallRev (normalizeCoord s).length (normalizeCoord s) ≠ []
  · rw [if_pos hrev, hpoly, if_neg (by simp)]
    exact main _
  · rw [if_neg hrev]
    by_cases hstd : findallStd (normalizeCoord s).length (normalizeCoord s) ≠ []
    · rw [if_pos hstd, hpoly, if_neg (by simp)]
      exact main _
    · exact absurd (by unfold get_coords; rw [if_neg hrev, if_neg hstd]) hne

/-! ### Concrete extractor evaluations -/

/-- `pdq` on an `N` token split into 2+2+2 digits. -/
lemma pdq_N (A B C : List Char) (hA : A.length = 2) (hB : B.length = 2) (hC : C.length = 2)
    (dA : allDig A = true) (dB : allDig B = true) (dC : allDig C = true) :
    pdq 'N' (A ++ B ++ C) = (parseNatDigits A : ℚ) + (parseNatDigits B : ℚ) / 60 +
      (parseNatDigits C : ℚ) / 3600 := by
  unfold pdq
  rw [parse_dms_cons 'N' _ rfl (allDig_of_parts dA dB dC),
    if_neg (by decide : ¬('N' = 'E' ∨ 'N' = 'W')), latVal_split A B C hA hB hC dA dB dC]
  simp only [Option.map_some', if_neg (by decide : ¬('N' = 'S' ∨ 'N' = 'W')),
    Option.getD_some, Int.cast_natCast]

/-- `pdq` on an `E` token split into 3+2+2 digits. -/
lemma pdq_E (A B C : List Char) (hA : A.length = 3) (hB : B.length = 2) (hC : C.length = 2)
    (dA : allDig A = true) (dB : allDig B = true) (dC : allDig C = true) :
    pdq 'E' (A ++ B ++ C) = (parseNatDigits A : ℚ) + (parseNatDigits B : ℚ) / 60 +
      (parseNatDigits C : ℚ) / 3600 := by
  unfold pdq
  rw [parse_dms_cons 'E' _ rfl (allDig_of_parts dA dB dC),
    if_pos (by decide : ('E' = 'E' ∨ 'E' = 'W')), lonVal_split A B C hA hB hC dA dB dC]
  simp only [Option.map_some', if_neg (by decide : ¬('E' = 'S' ∨ 'E' = 'W')),
    Option.getD_some, Int.cast_natCast]

/-- `closeRing` leaves a single-vertex list unchanged. -/
lemma closeRing_single (x : ℚ × ℚ) : closeRing [x] = [x] := by
  unfold closeRing
  rw [if_neg]
  intro h
  exact h.2 rfl

/-- Full evaluation of the extractor on `"N433604 E0765618"`: one
vertex, longitude first. -/
lemma gc_std_eval : get_coords "N433604 E0765618" =
    [((76 + 56 / 60 + 18 / 3600 : ℝ), (43 + 36 / 60 + 4 / 3600 : ℝ))] := by
  have hrev : findallRev (normalizeCoord "N433604 E0765618").length
      (normalizeCoord "N433604 E0765618") = [] := by decide
  have hstd : findallStd (normalizeCoord "N433604 E0765618").length
      (normalizeCoord "N433604 E0765618") = [('N', "433604".data, 'E', "0765618".data)] := by
    decide
  have hcf : circleFormat (normalizeCoord "N433604 E0765618") = false := by decide
  have hlat : pdq 'N' "433604".data = (43 : ℚ) + 36 / 60 + 4 / 3600 := by
    rw [show "433604".data = "43".data ++ "36".data ++ "04".data from rfl,
      pdq_N "43".data "36".data "04".data rfl rfl rfl (by decide) (by decide) (by decide),
      show parseNatDigits "43".data = 43 from rfl, show parseNatDigits "36".data = 36 from rfl,
      show parseNatDigits "04".data = 4 from rfl]
    norm_num
  have hlon : pdq 'E' "0765618".data = (76 : ℚ) + 56 / 60 + 18 / 3600 := by
    rw [show "0765618".data = "076".data ++ "56".data ++ "18".data from rfl,
      pdq_E "076".data "56".data "18".data rfl rfl rfl (by decide) (by decide) (by decide),
      show parseNatDigits "076".data = 76 from rfl, show parseNatDigits "56".data = 56 from rfl,
      show parseNatDigits "18".data = 18 from rfl]
    norm_num
  unfold get_coords
  rw [hrev, hstd, hcf]
  rw [if_neg (by simp), if_pos (by simp), if_neg (by simp)]
  show castPts (closeRing [stdToLonLat ('N', "433604".data, 'E', "0765618".data)]) = _
  rw [show stdToLonLat ('N', "433604".data, 'E', "0765618".data) =
      (pdq 'E' "0765618".data, pdq 'N' "433604".data) from rfl, hlat, hlon, closeRing_single]
  unfold castPts
  simp only [List.map_cons, List.map_nil]
  push_cast
  norm_num

/-- C2 counterexample: on `"N433604 E0765618"` the extractor returns a
single-vertex list — not a ring of 2 unique vertices plus a closing
repeat, which would need two or three entries. -/
theorem C2_standard_extraction_cex :
    (get_coords "N433604 E0765618").length = 1 ∧
    (get_coords "N433604 E0765618").length ≠ 2 ∧
    (get_coords "N433604 E0765618").length ≠ 3 := by
  rw [gc_std_eval]
  norm_num

/-- C2 amended: `"N433604 E0765618"` contains exactly one coordinate
pair, so the extractor returns exactly one `(lon, lat)` vertex with
longitude `76 + 56/60 + 18/3600 ≈ 76.9383` and latitude
`43 + 36/60 + 4/3600 ≈ 43.6011`; the singleton is trivially closed
(first vertex = last vertex) and no closing repeat is appended. -/
theorem C2_standard_extraction_amended :
    get_coords "N433604 E0765618" =
      [((76 + 56 / 60 + 18 / 3600 : ℝ), (43 + 36 / 60 + 4 / 3600 : ℝ))] ∧
    (get_coords "N433604 E0765618").head? = (get_coords "N433604 E0765618").getLast? := by
  refine ⟨gc_std_eval, ?_⟩
  rw [gc_std_eval]
  rfl

/-- Full evaluation of the extractor on `"N100000 E0100000"`. -/
lemma gc_std_eval10 : get_coords "N100000 E0100000" = [((10 : ℝ), (10 : ℝ))] := by
  have hrev : findallRev (normalizeCoord "N100000 E0100000").length
      (normalizeCoord "N100000 E0100000") = [] := by decide
  have hstd : findallStd (normalizeCoord "N100000 E0100000").length
      (normalizeCoord "N100000 E0100000") = [('N', "100000".data, 'E', "0100000".data)] := by
    decide
  have hcf : circleFormat (normalizeCoord "N100000 E0100000") = false := by decide
  have hlat : pdq 'N' "100000".data = (10 : ℚ) := by
    rw [show "100000".data = "10".data ++ "00".data ++ "00".data from rfl,
      pdq_N "10".data "00".data "00".data rfl rfl rfl (by decide) (by decide) (by decide),
      show parseNatDigits "10".data = 10 from rfl, show parseNatDigits "00".data = 0 from rfl]
    norm_num
  have hlon : pdq 'E' "0100000".data = (10 : ℚ) := by
    rw [show "0100000".data = "010".data ++ "00".data ++ "00".data from rfl,
      pdq_E "010".data "00".data "00".data rfl rfl rfl (by decide) (by decide) (by decide),
      show parseNatDigits "010".data = 10 from rfl, show parseNatDigits "00".data = 0 from rfl]
    norm_num
  unfold get_coords
  rw [hrev, hstd, hcf]
  rw [if_neg (by simp), if_pos (by simp), if_neg (by simp)]
  show castPts (closeRing [stdToLonLat ('N', "100000".data, 'E', "0100000".data)]) = _
  rw [show stdToLonLat ('N', "100000".data, 'E', "0100000".data) =
      (pdq 'E' "0100000".data, pdq 'N' "100000".data) from rfl, hlat, hlon, closeRing_single]
  unfold castPts
  simp only [List.map_cons, List.map_nil]
  norm_num

/-- Witness for C6 at the input `"N100000 E0100000"`. -/
theorem C6_polygon_ring_closed_witness :
    (circleFormat (normalizeCoord "N100000 E0100000") = false ∧
      get_coords "N100000 E0100000" ≠ []) ∧
    (get_coords "N100000 E0100000").head? = (get_coords "N100000 E0100000").getLast? :=
  ⟨⟨by decide, by rw [gc_std_eval10]; simp⟩,
    C6_polygon_ring_closed "N100000 E0100000" (by decide) (by rw [gc_std_eval10]; simp)⟩

lemma range_map_getD {β : Type} (f : ℕ → β) (m i : ℕ) (hi : i < m) (d : β) :
    ((List.range m).map f).getD i d = f i := by
  rw [List.getD_eq_getElem?_getD, List.getElem?_map, List.getElem?_range hi]
  rfl

/-- Full evaluation of the extractor on `"N433604 E0765618 R=5000"`:
circle mode with radius 5000 around the decoded first pair. -/
lemma gc_circle_eval : get_coords "N433604 E0765618 R=5000" =
    create_circle_polygon (43 + 36 / 60 + 4 / 3600) (76 + 56 / 60 + 18 / 3600) 5000 36 := by
  have hrev : findallRev (normalizeCoord "N433604 E0765618 R=5000").length
      (normalizeCoord "N433604 E0765618 R=5000") = [] := by decide
  have hstd : findallStd (normalizeCoord "N433604 E0765618 R=5000").length
      (normalizeCoord "N433604 E0765618 R=5000") =
      [('N', "433604".data, 'E', "0765618".data)] := by decide
  have hcf : circleFormat (normalizeCoord "N433604 E0765618 R=5000") = true := by decide
  have hrad : extract_radius (normalizeCoord "N433604 E0765618 R=5000") = 5000 := by decide
  have hlat : pdq 'N' "433604".data = (43 : ℚ) + 36 / 60 + 4 / 3600 := by
    rw [show "433604".data = "43".data ++ "36".data ++ "04".data from rfl,
      pdq_N "43".data "36".data "04".data rfl rfl rfl (by decide) (by decide) (by decide),
      show parseNatDigits "43".data = 43 from rfl, show parseNatDigits "36".data = 36 from rfl,
      show parseNatDigits "04".data = 4 from rfl]
    norm_num
  have hlon : pdq 'E' "0765618".data = (76 : ℚ) + 56 / 60 + 18 / 3600 := by
    rw [show "0765618".data = "076".data ++ "56".data ++ "18".data from rfl,
      pdq_E "076".data "56".data "18".data rfl rfl rfl (by decide) (by decide) (by decide),
      show parseNatDigits "076".data = 76 from rfl, show parseNatDigits "56".data = 56 from rfl,
      show parseNatDigits "18".data = 18 from rfl]
    norm_num
  unfold get_coords
  rw [hrev, hstd, hcf, hrad]
  rw [if_neg (by simp), if_pos (by simp), if_pos rfl]
  show create_circle_polygon ((pdq 'N' "433604".data : ℚ) : ℝ)
      ((pdq 'E' "0765618".data : ℚ) : ℝ) ((5000 : ℕ) : ℝ) 36 = _
  rw [hlat, hlon]
  norm_num

/-- C4: `create_circle_polygon` returns exactly `n + 1` vertices; the
`i`-th vertex is `(lon + Δlon·cos(2πi/n), lat + Δlat·sin(2πi/n))` with
`Δlat = (radius/6378137)·(180/π)` and `Δlon = Δlat / cos(lat·π/180)`;
the first vertex equals the last (closed ring); and the extractor's
circle mode on `"N433604 E0765618 R=5000"` yields exactly such a ring
with the default 36 + 1 = 37 vertices around the parsed center. -/
theorem C4_circle_synthesis (center_lat center_lon radius_meters : ℝ) (n : ℕ)
    (hcos : Real.cos (center_lat * Real.pi / 180) ≠ 0) (hn : 1 ≤ n) :
    (create_circle_polygon center_lat center_lon radius_meters n).length = n + 1 ∧
    (∀ i, i ≤ n → (create_circle_polygon center_lat center_lon radius_meters n).getD i (0, 0) =
      (center_lon + radius_meters / 6378137 * (180 / Real.pi) /
          Real.cos (center_lat * Real.pi / 180) * Real.cos (2 * Real.pi * i / n),
       center_lat + radius_meters / 6378137 * (180 / Real.pi) *
          Real.sin (2 * Real.pi * i / n))) ∧
    (create_circle_polygon center_lat center_lon radius_meters n).getD 0 (0, 0) =
      (create_circle_polygon center_lat center_lon radius_meters n).getD n (0, 0) ∧
    get_coords "N433604 E0765618 R=5000" =
      create_circle_polygon (43 + 36 / 60 + 4 / 3600) (76 + 56 / 60 + 18 / 3600) 5000 36 := by
  have hlen : (create_circle_polygon center_lat center_lon radius_meters n).length = n + 1 := by
    unfold create_circle_polygon
    rw [List.length_map, List.length_range]
  have hget : ∀ i, i ≤ n →
      (create_circle_polygon center_lat center_lon radius_meters n).getD i (0, 0) =
      (center_lon + radius_meters / 6378137 * (180 / Real.pi) /
          Real.cos (center_lat * Real.pi / 180) * Real.cos (2 * Real.pi * i / n),
       center_lat + radius_meters / 6378137 * (180 / Real.pi) *
          Real.sin (2 * Real.pi * i / n)) := by
    intro i hi
    unfold create_circle_polygon
    rw [range_map_getD _ (n + 1) i (by omega)]
  refine ⟨hlen, hget, ?_, gc_circle_eval⟩
  rw [hget 0 (by omega), hget n le_rfl]
  have hn0 : (n : ℝ) ≠ 0 := Nat.cast_ne_zero.mpr (by omega)
  have hang : 2 * Real.pi * (n : ℝ) / n = 2 * Real.pi := by
    field_simp
  rw [hang]
  norm_num [Real.cos_two_pi, Real.sin_two_pi]

/-- Witness for C4 at center `(0, 0)`, radius 1000, 36 vertices. -/
theorem C4_circle_synthesis_witness :
    (Real.cos ((0 : ℝ) * Real.pi / 180) ≠ 0 ∧ (1 : ℕ) ≤ 36) ∧
    ((create_circle_polygon 0 0 1000 36).length = 36 + 1 ∧
    (∀ i, i ≤ 36 → (create_circle_polygon (0 : ℝ) 0 1000 36).getD i (0, 0) =
      ((0 : ℝ) + 1000 / 6378137 * (180 / Real.pi) / Real.cos ((0 : ℝ) * Real.pi / 180) *
          Real.cos (2 * Real.pi * (i : ℝ) / ((36 : ℕ) : ℝ)),
       (0 : ℝ) + 1000 / 6378137 * (180 / Real.pi) *
          Real.sin (2 * Real.pi * (i : ℝ) / ((36 : ℕ) : ℝ)))) ∧
    (create_circle_polygon (0 : ℝ) 0 1000 36).getD 0 (0, 0) =
      (create_circle_polygon (0 : ℝ) 0 1000 36).getD 36 (0, 0) ∧
    get_coords "N433604 E0765618 R=5000" =
      create_circle_polygon (43 + 36 / 60 + 4 / 3600) (76 + 56 / 60 + 18 / 3600) 5000 36) := by
  have h1 : Real.cos ((0 : ℝ) * Real.pi / 180) ≠ 0 := by simp
  exact ⟨⟨h1, by norm_num⟩, C4_circle_synthesis 0 0 1000 36 h1 (by norm_num)⟩

/-! ### Lemmas: classifier statistics on degenerate inputs -/

lemma getLastD_eq_of_getLast? {α : Type} {l : List α} {a : α} (d : α)
    (h : l.getLast? = some a) : l.getLastD d = a := by
  cases l with
  | nil => simp at h
  | cons b t =>
    rw [getLast?_cons_eq_getLastD b t d] at h
    exact Option.some_inj.mp h

lemma headD_replicate_succ {α : Type} (n : ℕ) (x d : α) :
    (List.replicate (n + 1) x).headD d = x := by
  rw [List.replicate_succ]
  rfl

lemma getLastD_replicate_succ {α : Type} (n : ℕ) (x d : α) :
    (List.replicate (n + 1) x).getLastD d = x :=
  getLastD_eq_of_getLast? d (by rw [List.replicate_succ' n x, List.getLast?_concat])

lemma sampleGap_replicate (n : ℕ) : sampleGap (List.replicate (n + 1) pt0) = 0 := by
  unfold sampleGap
  rw [headD_replicate_succ, getLastD_replicate_succ]
  have h1 : lonOf pt0 - lonOf pt0 = 0 := sub_self _
  have h2 : latOf pt0 - latOf pt0 = 0 := sub_self _
  rw [h1, h2]
  norm_num

lemma isClosed_replicate (n : ℕ) : isClosed (List.replicate (n + 1) pt0) := by
  unfold isClosed
  rw [sampleGap_replicate]
  norm_num

lemma centerLon_replicate (n : ℕ) : centerLon (List.replicate n pt0) = 0 := by
  unfold centerLon
  rw [List.map_replicate, show lonOf pt0 = 0 from rfl, List.sum_replicate, smul_zero, zero_div]

lemma centerLat_replicate (n : ℕ) : centerLat (List.replicate n pt0) = 0 := by
  unfold centerLat
  rw [List.map_replicate, show latOf pt0 = 0 from rfl, List.sum_replicate, smul_zero, zero_div]

lemma avgDistance_replicate (n : ℕ) : avgDistance (List.replicate n pt0) = 0 := by
  unfold avgDistance distList
  rw [List.map_replicate, centerLon_replicate, centerLat_replicate]
  have hz : Real.sqrt ((lonOf pt0 - 0) ^ 2 + (latOf pt0 - 0) ^ 2) = 0 := by
    rw [show lonOf pt0 = 0 from rfl, show latOf pt0 = 0 from rfl]
    norm_num
  rw [hz, List.sum_replicate, smul_zero, zero_div]

lemma not_relVarLt_replicate (n : ℕ) : ¬ relVarLt (List.replicate n pt0) := by
  unfold relVarLt
  rw [avgDistance_replicate]
  rintro ⟨h, -⟩
  exact lt_irrefl 0 h

/-- C5: a closed sample of more than 50 points with hint `"line"` is
classified as a circle whose center is the coordinate centroid and
whose radius is the mean centroid distance scaled by 111000. -/
theorem C5_dense_line_circle (coordinates : List Sample) (hint : Option String)
    (hlen : 50 < coordinates.length) (hhint : hint = some "line")
    (hclosed : isClosed coordinates) :
    analyze_shape coordinates hint =
      ("circle", ShapeData.circ (centerLat coordinates) (centerLon coordinates)
        (avgDistance coordinates * 111000)) := by
  unfold analyze_shape
  rw [if_neg (by omega), if_pos ⟨hlen, hhint, hclosed⟩]

/-- Witness for C5: 61 coincident samples with hint `"line"`. -/
theorem C5_dense_line_circle_witness :
    (50 < (List.replicate 61 pt0).length ∧ (some "line" : Option String) = some "line" ∧
      isClosed (List.replicate 61 pt0)) ∧
    analyze_shape (List.replicate 61 pt0) (some "line") =
      ("circle", ShapeData.circ (centerLat (List.replicate 61 pt0))
        (centerLon (List.replicate 61 pt0)) (avgDistance (List.replicate 61 pt0) * 111000)) :=
  ⟨⟨by norm_num, rfl, isClosed_replicate 60⟩,
    C5_dense_line_circle _ _ (by norm_num) rfl (isClosed_replicate 60)⟩

/-! ### Lemmas: downsampling -/

lemma everyNth_cons {α : Type} (step : ℕ) (a : α) (t : List α) :
    everyNth step (a :: t) =
      a :: ((t.enumFrom 1).filter (fun p => decide (p.1 % step = 0))).map Prod.snd := by
  unfold everyNth
  rw [List.enum_cons, List.filter_cons_of_pos (by simp), List.map_cons]

lemma reduceCoords_head (coordinates : List Sample) (hne : coordinates ≠ []) :
    (reduceCoords coordinates).head? = coordinates.head? := by
  cases coordinates with
  | nil => exact absurd rfl hne
  | cons a t =>
    unfold reduceCoords
    simp only [everyNth_cons]
    split_ifs with h
    · rfl
    · rfl

lemma reduceCoords_getLast (coordinates : List Sample) (hne : coordinates ≠ [])
    (hclosed : isClosed coordinates) :
    (reduceCoords coordinates).getLast? = coordinates.getLast? := by
  unfold reduceCoords
  split_ifs with h
  · rw [List.getLast?_concat]
    cases coordinates with
    | nil => exact absurd rfl hne
    | cons a t => exact (getLast?_cons_eq_getLastD a t pt0).symm
  · have heq : (everyNth (max 1 (coordinates.length / 10)) coordinates).getLastD pt0 =
        coordinates.getLastD pt0 := by
      rcases not_and_or.mp h with h1 | h2
      · exact absurd hclosed h1
      · exact not_not.mp h2
    cases coordinates with
    | nil => exact absurd rfl hne
    | cons a t =>
      rw [everyNth_cons] at heq ⊢
      rw [getLast?_cons_eq_getLastD a _ pt0, heq]
      exact (getLast?_cons_eq_getLastD a t pt0).symm

/-- C8 counterexample: 60 coincident samples with hint `"line"` form a
closed set of more than 10 samples that the relative-variance test does
not classify as a circle (the mean centroid distance is zero), yet
`analyze_shape` returns a circle — the dense-closed-line shortcut fires
before the downsampling step — not a complex polygon. -/
theorem C8_downsample_cex :
    isClosed (List.replicate 60 pt0) ∧ 10 < (List.replicate 60 pt0).length ∧
    ¬ relVarLt (List.replicate 60 pt0) ∧
    (analyze_shape (List.replicate 60 pt0) (some "line")).1 = "circle" ∧
    ("circle" : String) ≠ "complex_polygon" := by
  refine ⟨isClosed_replicate 59, by norm_num, not_relVarLt_replicate 60, ?_, by decide⟩
  unfold analyze_shape
  rw [if_neg (by norm_num), if_pos ⟨by norm_num, rfl, isClosed_replicate 59⟩]

/-- C8 amended: a closed sample with more than 10 points, not
classified as a circle by the relative-variance test, and not captured
by the dense-closed-line shortcut (at most 50 samples or hint other
than `"line"`), is classified `complex_polygon`; the reduced list takes
every `max 1 (n / 10)`-th sample, appends the original last sample when
the strided list does not already end with it, and therefore starts at
the original first sample and ends at the original last sample. -/
theorem C8_downsample_amended (coordinates : List Sample) (hint : Option String)
    (hclosed : isClosed coordinates) (hlen : 10 < coordinates.length)
    (hnotvar : ¬ relVarLt coordinates)
    (hnotline : ¬ (50 < coordinates.length ∧ hint = some "line")) :
    analyze_shape coordinates hint =
      ("complex_polygon", ShapeData.pts (reduceCoords coordinates)) ∧
    (reduceCoords coordinates).head? = coordinates.head? ∧
    (reduceCoords coordinates).getLast? = coordinates.getLast? := by
  have hne : coordinates ≠ [] := by
    intro h
    rw [h] at hlen
    simp at hlen
  refine ⟨?_, reduceCoords_head _ hne, reduceCoords_getLast _ hne hclosed⟩
  unfold analyze_shape
  rw [if_neg (by omega), if_neg (by rintro ⟨h1, h2, -⟩; exact hnotline ⟨h1, h2⟩),
    if_neg (by rintro ⟨-, hv⟩; exact hnotvar hv), if_neg (by omega),
    if_neg (by rintro ⟨h5, -, -⟩; omega), if_pos hlen, if_pos hclosed]

/-- Witness for C8 (amended) at 12 coincident samples, no hint. -/
theorem C8_downsample_amended_witness :
    (isClosed (List.replicate 12 pt0) ∧ 10 < (List.replicate 12 pt0).length ∧
      ¬ relVarLt (List.replicate 12 pt0) ∧
      ¬ (50 < (List.replicate 12 pt0).length ∧ (none : Option String) = some "line")) ∧
    (analyze_shape (List.replicate 12 pt0) none =
      ("complex_polygon", ShapeData.pts (reduceCoords (List.replicate 12 pt0))) ∧
    (reduceCoords (List.replicate 12 pt0)).head? = (List.replicate 12 pt0).head? ∧
    (reduceCoords (List.replicate 12 pt0)).getLast? = (List.replicate 12 pt0).getLast?) :=
  ⟨⟨isClosed_replicate 11, by norm_num, not_relVarLt_replicate 12,
      by rintro ⟨h, -⟩; norm_num at h⟩,
    C8_downsample_amended _ _ (isClosed_replicate 11) (by norm_num)
      (not_relVarLt_replicate 12) (by rintro ⟨h, -⟩; norm_num at h)⟩

/-! ### C9: exactly 10 samples, not closed -/

lemma open10_not_closed : ¬ isClosed open10 := by
  have hh : open10.headD pt0 = pt0 := by
    unfold open10
    rw [List.replicate_succ, List.cons_append]
    rfl
  have hl : open10.getLastD pt0 = ((1 : ℝ), (0 : ℝ), (0 : ℝ)) :=
    getLastD_eq_of_getLast? pt0 (by unfold open10; rw [List.getLast?_concat])
  unfold isClosed sampleGap
  rw [hh, hl]
  show ¬ Real.sqrt (((0 : ℝ) - 1) ^ 2 + ((0 : ℝ) - 0) ^ 2) < 1 / 10000
  rw [show ((0 : ℝ) - 1) ^ 2 + ((0 : ℝ) - 0) ^ 2 = 1 by norm_num, Real.sqrt_one]
  norm_num

/-- C9: a sample set of exactly 10 points whose ends are at least the
closure tolerance apart, and which the polygon-hint variance test does
not classify as a circle, falls through every branch of
`analyze_shape` and is returned as a `path` with all samples intact —
a case the spec's decision procedure leaves unspecified. -/
theorem C9_ten_sample_path (coordinates : List Sample) (hint : Option String)
    (hlen : coordinates.length = 10) (hopen : ¬ isClosed coordinates)
    (hnotcirc : ¬ (hint = some "polygon" ∧ relVarLt coordinates)) :
    analyze_shape coordinates hint = ("path", ShapeData.pts coordinates) := by
  unfold analyze_shape
  rw [if_neg (by omega), if_neg (by rintro ⟨h, -, -⟩; omega),
    if_neg (by
      rintro ⟨h12, hv⟩
      rcases h12 with h1 | h2
      · have := h1.2
        omega
      · exact hnotcirc ⟨h2, hv⟩),
    if_neg (by omega), if_neg (by rintro ⟨h5, -, -⟩; omega), if_neg (by omega),
    if_neg hopen]

/-- Witness for C9 at `open10` with no hint. -/
theorem C9_ten_sample_path_witness :
    (open10.length = 10 ∧ ¬ isClosed open10 ∧
      ¬ ((none : Option String) = some "polygon" ∧ relVarLt open10)) ∧
    analyze_shape open10 none = ("path", ShapeData.pts open10) :=
  ⟨⟨by simp [open10], open10_not_closed, by rintro ⟨h, -⟩; simp at h⟩,
    C9_ten_sample_path _ _ (by simp [open10]) open10_not_closed
      (by rintro ⟨h, -⟩; simp at h)⟩

/-! ### C1: the 5-sample rectangle case -/

lemma rect5_closed : isClosed rect5 := by
  unfold isClosed sampleGap
  show Real.sqrt (((0 : ℝ) - 0) ^ 2 + ((0 : ℝ) - 0) ^ 2) < 1 / 10000
  norm_num

lemma rect5_parallel : parallelPred rect5 := by
  unfold parallelPred
  have h0 : sideVec rect5 0 = ((2 : ℝ) - 0, (0 : ℝ) - 0) := rfl
  have h1 : sideVec rect5 1 = ((2 : ℝ) - 2, (1 : ℝ) - 0) := rfl
  have h2 : sideVec rect5 2 = ((0 : ℝ) - 2, (1 : ℝ) - 1) := rfl
  have h3 : sideVec rect5 3 = ((0 : ℝ) - 0, (0 : ℝ) - 1) := rfl
  rw [h0, h1, h2, h3]
  norm_num

/-- C1 counterexample: `rect5` is a 5-sample closed axis-aligned
rectangle with both opposite edge pairs parallel, not classified as a
circle by any earlier step, yet `analyze_shape` returns `polygon` with
all 5 samples — the fewer-than-10-samples rule precedes the rectangle
test, which is unreachable for 5-point inputs — not `rectangle`. -/
theorem C1_rectangle_cex :
    (rect5.length = 5 ∧ isClosed rect5 ∧ parallelPred rect5 ∧
      ¬ ((none : Option String) = some "polygon" ∧ relVarLt rect5)) ∧
    analyze_shape rect5 none = ("polygon", ShapeData.pts rect5) ∧
    (analyze_shape rect5 none).1 ≠ "rectangle" := by
  have heval : analyze_shape rect5 none = ("polygon", ShapeData.pts rect5) := by
    unfold analyze_shape
    rw [if_neg (by norm_num [rect5]), if_neg (by rintro ⟨h, -, -⟩; norm_num [rect5] at h),
      if_neg (by
        rintro ⟨h12, -⟩
        rcases h12 with h1 | h2
        · have := h1.2
          norm_num [rect5] at this
        · simp at h2),
      if_pos (by norm_num [rect5])]
  refine ⟨⟨rfl, rect5_closed, rect5_parallel, by rintro ⟨h, -⟩; simp at h⟩, heval, ?_⟩
  rw [heval]
  show ("polygon" : String) ≠ "rectangle"
  decide

/-- C1 amended: a 5-sample closed set with parallel opposite edges that
is not classified as a circle (for 5 samples the variance test can only
fire with hint `"polygon"`) is returned as `polygon` with all 5
samples: the rectangle branch of `analyze_shape` is dead code because
the fewer-than-10-samples rule precedes it. -/
theorem C1_rectangle_amended (coordinates : List Sample) (hint : Option String)
    (hlen : coordinates.length = 5) (hclosed : isClosed coordinates)
    (hpar : parallelPred coordinates)
    (hnotcirc : ¬ (hint = some "polygon" ∧ relVarLt coordinates)) :
    analyze_shape coordinates hint = ("polygon", ShapeData.pts coordinates) := by
  unfold analyze_shape
  rw [if_neg (by omega), if_neg (by rintro ⟨h, -, -⟩; omega),
    if_neg (by
      rintro ⟨h12, hv⟩
      rcases h12 with h1 | h2
      · have := h1.2
        omega
      · exact hnotcirc ⟨h2, hv⟩),
    if_pos (by omega)]

/-- Witness for C1 (amended) at `rect5` with no hint. -/
theorem C1_rectangle_amended_witness :
    (rect5.length = 5 ∧ isClosed rect5 ∧ parallelPred rect5 ∧
      ¬ ((none : Option String) = some "polygon" ∧ relVarLt rect5)) ∧
    analyze_shape rect5 none = ("polygon", ShapeData.pts rect5) :=
  ⟨⟨rfl, rect5_closed, rect5_parallel, by rintro ⟨h, -⟩; simp at h⟩,
    C1_rectangle_amended rect5 none rfl rect5_closed rect5_parallel
      (by rintro ⟨h, -⟩; simp at h)⟩
